import Mathlib

/-!
Shallow embedding of bustub's `tools/sqllogictest/sqllogictest.cpp`:
the record execution driver (`main`'s record loop), the directive
processor (`ProcessExtraOptions`) and the result comparator
(`SplitLines` / `ResultCompare`).

The SQL engine / session (`BusTubInstance`) is opaque in the source and is
modelled as a state machine `Engine σ`: executing a SQL string either
succeeds with a rendered output string and a new state, or raises a
`bustub::Exception` (an engine error).  Printing, timing measurement and
the diff-artifact files are I/O side effects with no bearing on control
flow and are not part of the functional model.

The string helpers from `common/util/string_util.h` are not part of the
given sources; they are modelled from the spec's descriptions of their use
(splitting on delimiters, trimming whitespace, substring containment) and
from the repository's conventional semantics; each such definition carries
a `Modelled from the spec:` comment.
-/

namespace Bustub

/-- The `std::isspace` character class used by the trims (C locale). -/
def isSpaceCpp (c : Char) : Bool :=
  c = ' ' || c = '\t' || c = '\n' || c = '\x0b' || c = '\x0c' || c = '\r'

/-- Modelled from the spec: `StringUtil::RTrim` (common/util/string_util.h,
not under src/) erases trailing whitespace characters; the comparator
"right-trims trailing whitespace from each line" (spec section 4.2). -/
def cppRtrim (s : String) : String :=
  String.mk ((s.data.reverse.dropWhile isSpaceCpp).reverse)

/-- Modelled from the spec: `StringUtil::LTrim` (common/util/string_util.h,
not under src/) erases leading whitespace characters; the column-pruned
directive left-trims each plan line before classifying it. -/
def cppLtrim (s : String) : String :=
  String.mk (s.data.dropWhile isSpaceCpp)

/-- Tests whether `pre` is a prefix of `l` (character-wise). -/
def listIsPrefixCpp : List Char → List Char → Bool
  | [], _ => true
  | _ :: _, [] => false
  | a :: as, b :: bs => a == b && listIsPrefixCpp as bs

/-- Modelled from the spec: `StringUtil::StartsWith` (not under src/);
true when the string begins with the given literal. -/
def cppStartsWith (s pre : String) : Bool :=
  listIsPrefixCpp pre.data s.data

/-- First index `≥ i` at which `pat` occurs in `hay` (as `std::string::find`
starting from offset `i` relative to the original string). -/
def cppFindAux (pat : List Char) : List Char → Nat → Option Nat
  | [], i => if listIsPrefixCpp pat [] then some i else none
  | h :: t, i => if listIsPrefixCpp pat (h :: t) then some i else cppFindAux pat t (i + 1)

/-- Modelled from the spec: `StringUtil::Contains` (not under src/);
substring containment, i.e. `find != npos`. -/
def cppContains (s pat : String) : Bool :=
  (cppFindAux pat.data s.data 0).isSome

/-- Modelled from the spec: `StringUtil::ContainsAfter` (not under src/).
Per the spec ("must not have a filter node appearing after the
optimizer-plan marker", section 4.1): find the keyword; if absent the
result is false, otherwise search for the pattern from the keyword's
position onwards. -/
def cppContainsAfter (keyword s pat : String) : Bool :=
  match cppFindAux keyword.data s.data 0 with
  | none => false
  | some p => (cppFindAux pat.data (s.data.drop p) 0).isSome

/-- Fuel-driven worker for `cppSplit`: repeatedly find the separator and cut.
The fuel (`hay.length + 1` at the top call) is an upper bound on the number
of cuts for a non-empty separator, so it is never exhausted in practice. -/
def cppSplitGo (sep : List Char) : Nat → List Char → List (List Char)
  | 0, hay => [hay]
  | fuel + 1, hay =>
    match cppFindAux sep hay 0 with
    | none => [hay]
    | some i => hay.take i :: cppSplitGo sep fuel (hay.drop (i + sep.length))

/-- Modelled from the spec: `StringUtil::Split` on a string delimiter (not
under src/); cuts the input at every occurrence of the delimiter and keeps
only the non-empty fragments (the spec speaks of "the fragments" of
splitting plan text, section 4.1). -/
def cppSplit (s sep : String) : List String :=
  ((cppSplitGo sep.data (s.data.length + 1) s.data).map String.mk).filter
    (fun piece => piece != "")

/-- Fuel-driven worker for `cppCount`. -/
def cppCountGo (pat : List Char) : Nat → List Char → Nat
  | 0, _ => 0
  | fuel + 1, hay =>
    match cppFindAux pat hay 0 with
    | none => 0
    | some i => 1 + cppCountGo pat fuel (hay.drop (i + pat.length))

/-- Modelled from the spec: `StringUtil::Count` (not under src/); number of
(non-overlapping) occurrences of the pattern, used to count the
"comma-delimited entries" of a column list (spec section 4.1). -/
def cppCount (s pat : String) : Nat :=
  cppCountGo pat.data (s.data.length + 1) s.data

/-- Semantics of `std::stoi`: skip leading whitespace, optional sign, then at least one
digit (else it throws `std::invalid_argument`); parsing stops at the first
non-digit.  Out-of-range inputs are not modelled (the driver only parses
short directive arguments). -/
def digitsToNat : Nat → List Char → Nat
  | acc, [] => acc
  | acc, c :: cs => if c.isDigit then digitsToNat (acc * 10 + (c.toNat - 48)) cs else acc

/-- Error kinds a directive-processing step can raise.  `engineErr` and
`notImpl` are `bustub::Exception`s (the repository's
`NotImplementedException` derives from `Exception`, which the spec's
section 9 design note records as "both expected-control-flow and true fatal
errors unified under one throwing mechanism"); `invalidArg` is
`std::invalid_argument` out of `std::stoi`, which is not a
`bustub::Exception` and is caught nowhere in `main`. -/
inductive ErrKind
  | engineErr
  | notImpl
  | invalidArg
deriving DecidableEq, Repr

/-- Whether `main`'s `catch (bustub::Exception &)` handlers catch this. -/
def ErrKind.isBustubException : ErrKind → Bool
  | .engineErr => true
  | .notImpl => true
  | .invalidArg => false

/-- Runs `std::stoi` on a character list; `Except` carries the thrown kind. -/
def cppStoiChars (cs : List Char) : Except ErrKind Int :=
  let cs := cs.dropWhile isSpaceCpp
  match cs with
  | '-' :: rest =>
    if rest.headD 'x' |>.isDigit then .ok (-(digitsToNat 0 rest : Int)) else .error .invalidArg
  | '+' :: rest =>
    if rest.headD 'x' |>.isDigit then .ok (digitsToNat 0 rest) else .error .invalidArg
  | rest =>
    if rest.headD 'x' |>.isDigit then .ok (digitsToNat 0 rest) else .error .invalidArg

/-- The conversion `static_cast<size_t>` of a C++ `int`: conversion to the unsigned 64-bit
type is reduction modulo `2^64` (negative counts become huge). -/
def castSizeT (i : Int) : Nat :=
  (i % ((2 : Int) ^ 64)).toNat

/-! ## Result comparator (`SplitLines`, `ResultCompare`) -/

/-- Pieces produced by `std::getline(stream, line, '\n')`: the text between
newlines; a trailing newline produces no final empty piece. -/
def splitNlAux : List Char → List Char → List (List Char)
  | cur, [] => if cur.isEmpty then [] else [cur.reverse]
  | cur, c :: cs => if c = '\n' then cur.reverse :: splitNlAux [] cs else splitNlAux (c :: cur) cs

/-- Function `SplitLines` (sqllogictest.cpp:33): read lines with `getline`, right-trim
each, and keep only the lines that remain non-empty. -/
def SplitLines (lines : String) : List String :=
  (((splitNlAux [] lines.data).map String.mk).map cppRtrim).filter (fun l => l != "")

/-- Lexicographic strict order on character lists, as `operator<` on
`std::string` compares character by character. -/
def charListLt : List Char → List Char → Bool
  | [], [] => false
  | [], _ :: _ => true
  | _ :: _, [] => false
  | a :: as, b :: bs => if a < b then true else if b < a then false else charListLt as bs

def strLtCpp (a b : String) : Bool := charListLt a.data b.data

/-- Insertion into a sorted list, ascending under `strLtCpp`. -/
def insertSorted (x : String) : List String → List String
  | [] => [x]
  | y :: ys => if strLtCpp x y then x :: y :: ys else y :: insertSorted x ys

/-- Ascending sort under `strLtCpp`.  `std::sort` with `operator<` on
strings produces the same ascending sequence (strings comparing equal are
identical, so the unstable reordering is unique). -/
def sortLines : List String → List String
  | [] => []
  | x :: xs => insertSorted x (sortLines xs)

/-- The sqllogictest sort modes reaching the comparator: `ROWSORT` sorts
both line sequences before comparing, anything else (`NONE`) compares the
sequences in order. -/
inductive SortMode
  | NONE
  | ROWSORT
deriving DecidableEq, Repr

/-- Function `ResultCompare` (sqllogictest.cpp:46): split both blocks into normalized
lines, sort both when the mode is `ROWSORT`, and compare for sequence
equality.  The `dumpDiff` flag only triggers writing the two line lists to
`result.log` / `expected.log` (file I/O, no effect on the returned value),
so it is an unused parameter here. -/
def ResultCompare (producedResult expectedResult : String) (sortMode : SortMode)
    (_dumpDiff : Bool) : Bool :=
  let aLines := SplitLines producedResult
  let bLines := SplitLines expectedResult
  match sortMode with
  | .ROWSORT => sortLines aLines == sortLines bLines
  | .NONE => aLines == bLines

/-! ## Data model: check options, records, engine -/

/-- Type `CheckOptions` (`execution/check_options.h`): the set of engine-side
verification flags a directive may switch on.  The set holds at most the
two flags the directives use (`ENABLE_TOPN_CHECK`, `ENABLE_NLJ_CHECK`), so
it is represented by two booleans. -/
structure CheckOptions where
  topn : Bool := false
  nlj : Bool := false
deriving DecidableEq, Repr

/-- The fresh, empty `CheckOptions` built by `std::make_shared` at the top
of each loop iteration (sqllogictest.cpp:295). -/
def emptyCheckOptions : CheckOptions := {}

/-- Record type `StatementRecord`: SQL, the expected-error flag `is_error_`, and the
directive list `extra_options_`. -/
structure StatementRecord where
  sql : String
  is_error : Bool
  extra_options : List String
deriving DecidableEq, Repr

/-- Record type `QueryRecord`: SQL, expected result text, sort mode, directives. -/
structure QueryRecord where
  sql : String
  expected_result : String
  sort_mode : SortMode
  extra_options : List String
deriving DecidableEq, Repr

/-- The record kinds the driver dispatches on (`RecordType`).  The parser
is external; the driver's `default:` branch for other kinds is
unreachable for parser output and is not modelled. -/
inductive Record
  | halt
  | sleep (seconds : Nat)
  | statement (st : StatementRecord)
  | query (q : QueryRecord)
deriving DecidableEq, Repr

/-- Outcome of one `BusTubInstance::ExecuteSql` call: rendered output and a
new engine state, or a thrown engine error (a `bustub::Exception`) leaving
the engine in some state. -/
inductive ExecResult (σ : Type)
  | ok (output : String) (s : σ)
  | err (s : σ)
deriving DecidableEq, Repr

/-- The opaque engine/session (`BusTubInstance`): a state machine executing
SQL (the `Option CheckOptions` argument is `none` for the calls that leave
the parameter defaulted) and exposing the disk manager's write/delete
counters for the post-run threshold checks. -/
structure Engine (σ : Type) where
  exec : σ → String → Option CheckOptions → ExecResult σ
  numWrites : σ → Int
  numDeletes : σ → Int

/-- Result of `ProcessExtraOptions`: returned `true` with the accumulated
check options, returned `false` (a failed plan-shape assertion), or threw. -/
inductive PeoResult (σ : Type)
  | ok (co : CheckOptions) (s : σ)
  | failed (s : σ)
  | thrown (e : ErrKind) (s : σ)
deriving DecidableEq, Repr

/-! ## Directive processor (`ProcessExtraOptions`) -/

/-- The per-`Agg`-line test of the `ensure:column-pruned` directive
(sqllogictest.cpp:156-169): the line must split into exactly 3 fragments on
`"],"`, and the first two fragments (grouping columns, aggregate columns)
must each hold at most `expectedColsAgg` entries, counting entries as
occurrences of `"\","` plus one, with the expectation cast to `size_t`. -/
def aggLineOk (line : String) (expectedColsAgg : Int) : Bool :=
  let cols := cppSplit line "],"
  if cols.length != 3 then false
  else if cppCount (cols.getD 0 "") "\"," + 1 > castSizeT expectedColsAgg then false
  else if cppCount (cols.getD 1 "") "\"," + 1 > castSizeT expectedColsAgg then false
  else true

/-- The line scan of the `ensure:column-pruned` directive
(sqllogictest.cpp:154-176): left-trim each line; a line starting with
`Agg` is tested with `aggLineOk` and the scan `break`s there; a line
starting with `Projection` fails the directive when its entry count
exceeds the expectation; all other lines are skipped.  Returns `true` when
the scan completes (or breaks) without a violation. -/
def columnPrunedLoop (expectedColsProj expectedColsAgg : Int) : List String → Bool
  | [] => true
  | line :: rest =>
    let l := cppLtrim line
    if cppStartsWith l "Agg" then aggLineOk l expectedColsAgg
    else if cppStartsWith l "Projection" then
      if cppCount l "\"," + 1 > castSizeT expectedColsProj then false
      else columnPrunedLoop expectedColsProj expectedColsAgg rest
    else columnPrunedLoop expectedColsProj expectedColsAgg rest

/-- Branch body of `ensure:index_scan` (sqllogictest.cpp:87-91). -/
def ensureIndexScan (plan : String) (co : CheckOptions) (s : σ) : PeoResult σ :=
  if !cppContains plan "IndexScan" then .failed s else .ok co s

/-- Branch body of `ensure:seq_scan` (sqllogictest.cpp:92-97). -/
def ensureSeqScan (plan : String) (co : CheckOptions) (s : σ) : PeoResult σ :=
  if cppContains plan "IndexScan" || cppContainsAfter "OPTIMIZER" plan "Filter" then .failed s
  else .ok co s

/-- Branch body of `ensure:hash_join` (sqllogictest.cpp:98-103). -/
def ensureHashJoin (plan : String) (co : CheckOptions) (s : σ) : PeoResult σ :=
  if (cppSplit plan "HashJoin").length != 2 && !cppContains plan "Filter" then .failed s
  else .ok co s

/-- Branch body of `ensure:hash_join_no_filter` (sqllogictest.cpp:104-109). -/
def ensureHashJoinNoFilter (plan : String) (co : CheckOptions) (s : σ) : PeoResult σ :=
  if (cppSplit plan "HashJoin").length != 2 || cppContainsAfter "OPTIMIZER" plan "Filter" then
    .failed s
  else .ok co s

/-- Branch body of `ensure:hash_join*2` (sqllogictest.cpp:110-115). -/
def ensureHashJoin2 (plan : String) (co : CheckOptions) (s : σ) : PeoResult σ :=
  if (cppSplit plan "HashJoin").length != 3 && !cppContains plan "Filter" then .failed s
  else .ok co s

/-- Branch body of `ensure:hash_join*3` (sqllogictest.cpp:116-121). -/
def ensureHashJoin3 (plan : String) (co : CheckOptions) (s : σ) : PeoResult σ :=
  if (cppSplit plan "HashJoin").length != 4 && !cppContains plan "Filter" then .failed s
  else .ok co s

/-- Branch body of `ensure:topn` (sqllogictest.cpp:122-127): on success enables the
top-N runtime check. -/
def ensureTopn (plan : String) (co : CheckOptions) (s : σ) : PeoResult σ :=
  if !cppContains plan "TopN" then .failed s else .ok { co with topn := true } s

/-- Branch body of `ensure:topn*2` (sqllogictest.cpp:128-133). -/
def ensureTopn2 (plan : String) (co : CheckOptions) (s : σ) : PeoResult σ :=
  if (cppSplit plan "TopN").length != 3 then .failed s else .ok { co with topn := true } s

/-- Branch body of `ensure:index_join` (sqllogictest.cpp:134-138). -/
def ensureIndexJoin (plan : String) (co : CheckOptions) (s : σ) : PeoResult σ :=
  if !cppContains plan "NestedIndexJoin" then .failed s else .ok co s

/-- Branch body of `ensure:nlj_init_check` (sqllogictest.cpp:139-144): on success
enables the nested-loop-join runtime check. -/
def ensureNljInitCheck (plan : String) (co : CheckOptions) (s : σ) : PeoResult σ :=
  if !cppContains plan "NestedLoopJoin" then .failed s else .ok { co with nlj := true } s

/-- Branch body of `ensure:column-pruned` (sqllogictest.cpp:145-176): the option must
split on `":"` into exactly 4 fragments (else `NotImplementedException`),
the two numeric arguments are parsed with `std::stoi`, and the plan's
lines are scanned by `columnPrunedLoop`. -/
def ensureColumnPruned (opt plan : String) (co : CheckOptions) (s : σ) : PeoResult σ :=
  if (cppSplit opt ":").length != 4 then .thrown .notImpl s
  else
    match cppStoiChars ((cppSplit opt ":").getD 2 "").data,
        cppStoiChars ((cppSplit opt ":").getD 3 "").data with
    | .ok pcols, .ok acols =>
      if columnPrunedLoop pcols acols (cppSplit plan "\n") then .ok co s else .failed s
    | _, _ => .thrown .invalidArg s

/-- The `ensure:` branch chain of `ProcessExtraOptions`
(sqllogictest.cpp:87-179), applied to the captured `explain (o)` plan
text.  Mirrors the source's `if`/`else if` chain, including its order;
each branch body is the correspondingly named definition above. -/
def ensureCheck (opt plan : String) (co : CheckOptions) (s : σ) : PeoResult σ :=
  if opt == "ensure:index_scan" then ensureIndexScan plan co s
  else if opt == "ensure:seq_scan" then ensureSeqScan plan co s
  else if opt == "ensure:hash_join" then ensureHashJoin plan co s
  else if opt == "ensure:hash_join_no_filter" then ensureHashJoinNoFilter plan co s
  else if opt == "ensure:hash_join*2" then ensureHashJoin2 plan co s
  else if opt == "ensure:hash_join*3" then ensureHashJoin3 plan co s
  else if opt == "ensure:topn" then ensureTopn plan co s
  else if opt == "ensure:topn*2" then ensureTopn2 plan co s
  else if opt == "ensure:index_join" then ensureIndexJoin plan co s
  else if opt == "ensure:nlj_init_check" then ensureNljInitCheck plan co s
  else if cppStartsWith opt "ensure:column-pruned" then ensureColumnPruned opt plan co s
  else .thrown .notImpl s

/-- Argument scan of the `timing` directive (sqllogictest.cpp:181-193):
over the colon-separated arguments after the directive name, `x<digits>`
sets the repeat count (`std::stoi` may throw), `.<label>` sets the report
label (which only affects printing and is dropped here), anything else
throws `NotImplementedException`. -/
def parseTiming : List String → Int → Except ErrKind Int
  | [], rep => .ok rep
  | a :: rest, rep =>
    if cppStartsWith a "x" then
      match cppStoiChars (a.data.drop 1) with
      | .ok n => parseTiming rest n
      | .error e => .error e
    else if cppStartsWith a "." then parseTiming rest rep
    else .error .notImpl

/-- The timed executions of the `timing` directive (sqllogictest.cpp:195-204):
run the SQL `repeat` times against a discarding sink; an engine error in
any run propagates.  Wall-clock measurement is I/O and is not modelled. -/
def timingRuns (eng : Engine σ) (sql : String) (co : CheckOptions) :
    Nat → σ → PeoResult σ
  | 0, s => .ok co s
  | n + 1, s =>
    match eng.exec s sql none with
    | .err s' => .thrown .engineErr s'
    | .ok _ s' => timingRuns eng sql co n s'

/-- The SQL the `explain` directive sends (sqllogictest.cpp:214-220): split
the option string on `"explain:"`; when the fragment list is non-empty and
its first fragment `x[0]` is non-empty, run `explain (<x[0]>) <sql>`,
otherwise plain `explain <sql>`. -/
def explainSqlFor (opt sql : String) : String :=
  match cppSplit opt "explain:" with
  | [] => "explain " ++ sql
  | x0 :: _ => if x0 != "" then "explain (" ++ x0 ++ ") " ++ sql else "explain " ++ sql

/-- One iteration of `ProcessExtraOptions`'s option loop
(sqllogictest.cpp:81-230): dispatch on the option's prefix.  An `ensure:`
option first captures the `explain (o)` plan; `timing` reruns the SQL; an
`explain` option streams `explainSqlFor opt sql`; any other prefix throws
`NotImplementedException`. -/
def processOneOption (eng : Engine σ) (sql opt : String) (co : CheckOptions) (s : σ) :
    PeoResult σ :=
  if cppStartsWith opt "ensure:" then
    match eng.exec s ("explain (o) " ++ sql) none with
    | .err s' => .thrown .engineErr s'
    | .ok plan s' => ensureCheck opt plan co s'
  else if cppStartsWith opt "timing" then
    match parseTiming ((cppSplit opt ":").drop 1) 1 with
    | .error k => .thrown k s
    | .ok rep => timingRuns eng sql co rep.toNat s
  else if cppStartsWith opt "explain" then
    match eng.exec s (explainSqlFor opt sql) none with
    | .err s' => .thrown .engineErr s'
    | .ok _ s' => .ok co s'
  else .thrown .notImpl s

/-- Function `ProcessExtraOptions` (sqllogictest.cpp:78-232): process the options in
order, short-circuiting on the first failure and letting exceptions
propagate; returns `true` (with the mutated check options) when every
option passes. -/
def ProcessExtraOptions (eng : Engine σ) (sql : String) :
    List String → CheckOptions → σ → PeoResult σ
  | [], co, s => .ok co s
  | opt :: rest, co, s =>
    match processOneOption eng sql opt co s with
    | .ok co' s' => ProcessExtraOptions eng sql rest co' s'
    | r => r

/-! ## Execution driver (`main`'s record loop) -/

/-- Process exit: `exit c` is a `return c` from `main`; `crash` is an
uncaught non-`bustub` exception (`std::invalid_argument` from `std::stoi`)
terminating the process abnormally. -/
inductive RunResult
  | exit (code : Nat)
  | crash
deriving DecidableEq, Repr

/-- Outcome of one record: continue the loop in a new engine state, leave
`main` with an exit code, or crash. -/
inductive StepOut (σ : Type)
  | cont (s : σ)
  | exit (code : Nat)
  | crash
deriving DecidableEq, Repr

/-- Instrumentation: one entry per main `ExecuteSql` call the driver issues
for a statement/query record, recording the record's SQL and directives,
the engine state the record started from, and the `CheckOptions` instance
passed to the execution. -/
structure ExecEvent (σ : Type) where
  sql : String
  opts : List String
  pre : σ
  co : CheckOptions
deriving DecidableEq, Repr

/-- One iteration of the record loop (sqllogictest.cpp:294-391), for one
record, together with the `ExecuteSql`-call events it issues.  Each
iteration builds a fresh empty `CheckOptions` (line 295).  For statements
and queries the whole body runs inside `try`/`catch (bustub::Exception&)`:
a statement absorbs a caught exception exactly when `is_error_` is set,
a query always aborts on one; `std::invalid_argument` is caught by
neither handler and crashes the process. -/
def execRecord (cfg : Bool) (eng : Engine σ) (s : σ) :
    Record → StepOut σ × List (ExecEvent σ)
  | .halt => (.exit 0, [])
  | .sleep _ => (.cont s, [])
  | .statement st =>
    match ProcessExtraOptions eng st.sql st.extra_options emptyCheckOptions s with
    | .failed _ => (.exit 1, [])
    | .thrown k s' =>
      if k.isBustubException then
        if st.is_error then (.cont s', []) else (.exit 1, [])
      else (.crash, [])
    | .ok co s' =>
      match eng.exec s' st.sql (some co) with
      | .err s'' =>
        (if st.is_error then .cont s'' else .exit 1, [⟨st.sql, st.extra_options, s, co⟩])
      | .ok _ s'' =>
        (if st.is_error then .exit 1 else .cont s'', [⟨st.sql, st.extra_options, s, co⟩])
  | .query q =>
    match ProcessExtraOptions eng q.sql q.extra_options emptyCheckOptions s with
    | .failed _ => (.exit 1, [])
    | .thrown k _ =>
      if k.isBustubException then (.exit 1, []) else (.crash, [])
    | .ok co s' =>
      match eng.exec s' q.sql (some co) with
      | .err _ => (.exit 1, [⟨q.sql, q.extra_options, s, co⟩])
      | .ok out s'' =>
        (if ResultCompare out q.expected_result q.sort_mode cfg then .cont s'' else .exit 1,
         [⟨q.sql, q.extra_options, s, co⟩])

/-- Command-line threshold configuration for the post-run checks; the
`diff` flag is forwarded to the comparator. -/
structure Config where
  diff : Bool := false
  checkMinDiskWrite : Option Int := none
  checkMaxDiskWrite : Option Int := none
  checkMinDiskDelete : Option Int := none

/-- The post-run disk threshold checks (sqllogictest.cpp:393-416), run only
when the record loop falls off the end of the stream. -/
def postChecks (cfg : Config) (eng : Engine σ) (s : σ) : RunResult :=
  if cfg.checkMinDiskWrite.any (fun m => eng.numWrites s < m) then .exit 1
  else if cfg.checkMaxDiskWrite.any (fun m => eng.numWrites s > m) then .exit 1
  else if cfg.checkMinDiskDelete.any (fun m => eng.numDeletes s < m) then .exit 1
  else .exit 0

/-- The record loop of `main` followed by the post-run threshold checks,
with the trace of main `ExecuteSql` events. -/
def runRecords (cfg : Config) (eng : Engine σ) : σ → List Record → RunResult × List (ExecEvent σ)
  | s, [] => (postChecks cfg eng s, [])
  | s, r :: rest =>
    match execRecord cfg.diff eng s r with
    | (.cont s', evs) =>
      ((runRecords cfg eng s' rest).1, evs ++ (runRecords cfg eng s' rest).2)
    | (.exit c, evs) => (.exit c, evs)
    | (.crash, evs) => (.crash, evs)

/-- Function `main` after CLI parsing and engine construction: an empty parse result
returns 0 before the loop (sqllogictest.cpp:274-277), otherwise the record
loop runs. -/
def sqllogictestMain (cfg : Config) (eng : Engine σ) (s : σ) (records : List Record) :
    RunResult × List (ExecEvent σ) :=
  if records.isEmpty then (.exit 0, []) else runRecords cfg eng s records

/-- Runs a prefix of the record stream and reports the continuation state,
or `none` when some record in the prefix leaves the loop (exit or crash)
instead of continuing. -/
def runPrefix (cfg : Config) (eng : Engine σ) : σ → List Record → Option σ
  | s, [] => some s
  | s, r :: rest =>
    match execRecord cfg.diff eng s r with
    | (.cont s', _) => runPrefix cfg eng s' rest
    | _ => none

/-! ## Specification-side readings of the column-pruned scan

`specColumnPruned` follows the claim's words: every projection line
anywhere in the plan is tested, and the first aggregation line is tested.
`columnPrunedScan` is the amended reading: only the projection lines
before the first aggregation line are tested, because the code's scan
`break`s at the first aggregation line. -/

/-- The claim's reading of `ensure:column-pruned`: "tests every projection
node found in the plan" and "the first aggregation node". -/
def specColumnPruned (plan : String) (expectedColsProj expectedColsAgg : Int) : Bool :=
  ((cppSplit plan "\n").map cppLtrim).all
      (fun l =>
        if cppStartsWith l "Projection" then
          if cppCount l "\"," + 1 > castSizeT expectedColsProj then false else true
        else true) &&
    match ((cppSplit plan "\n").map cppLtrim).filter (fun l => cppStartsWith l "Agg") with
    | [] => true
    | agg :: _ => aggLineOk agg expectedColsAgg

/-- The amended, structural reading of the code's scan: test the projection
lines strictly before the first `Agg` line, then test the first `Agg` line
(if any); projection lines after the first `Agg` line are never tested. -/
def columnPrunedScan (expectedColsProj expectedColsAgg : Int) (lines : List String) : Bool :=
  ((lines.map cppLtrim).takeWhile (fun l => !cppStartsWith l "Agg")).all
      (fun l =>
        if cppStartsWith l "Projection" then
          if cppCount l "\"," + 1 > castSizeT expectedColsProj then false else true
        else true) &&
    match (lines.map cppLtrim).dropWhile (fun l => !cppStartsWith l "Agg") with
    | [] => true
    | agg :: _ => aggLineOk agg expectedColsAgg

/-- Definition `columnPrunedScan` applied to the plan's lines, as the amended claim
reads the directive. -/
def amendedColumnPruned (plan : String) (expectedColsProj expectedColsAgg : Int) : Bool :=
  columnPrunedScan expectedColsProj expectedColsAgg (cppSplit plan "\n")

/-! ## Concrete engines and records used by witnesses and counterexamples -/

/-- An engine whose every execution succeeds with empty output and no state
change; its counters stay at zero. -/
def trivEngine : Engine Unit :=
  ⟨fun _ _ _ => .ok "" (), fun _ => 0, fun _ => 0⟩

/-- An engine whose every execution raises an engine error. -/
def errEngine : Engine Unit :=
  ⟨fun _ _ _ => .err (), fun _ => 0, fun _ => 0⟩

/-- An engine whose every execution succeeds with output `"1"`. -/
def oneEngine : Engine Unit :=
  ⟨fun _ _ _ => .ok "1" (), fun _ => 0, fun _ => 0⟩

/-- A recording engine: the state is the list of SQL strings executed so
far, so theorems can observe exactly which SQL the driver sent. -/
def recEngine : Engine (List String) :=
  ⟨fun s sql _ => .ok "" (s ++ [sql]), fun _ => 0, fun _ => 0⟩

/-- A statement expecting an error whose directive list holds an
unsupported directive. -/
def c1Stmt : StatementRecord :=
  ⟨"insert into t1 values (1)", true, ["ensure:unknown_directive"]⟩

/-- The same statement not expecting an error. -/
def c1StmtNoErr : StatementRecord :=
  ⟨"insert into t1 values (1)", false, ["ensure:unknown_directive"]⟩

/-- A query whose directive list holds an unsupported directive. -/
def c1Query : QueryRecord :=
  ⟨"select * from t1", "", .NONE, ["ensure:unknown_directive"]⟩

/-- A statement whose column-pruned directive has non-numeric arguments,
so `std::stoi` throws `std::invalid_argument`. -/
def c1StmtBadArgs : StatementRecord :=
  ⟨"insert into t1 values (1)", true, ["ensure:column-pruned:x:y"]⟩

/-- A plan whose first line is an aggregation and whose second line is a
projection with two column entries; the code's scan breaks at the first
line and never tests the projection. -/
def c2Plan : String := "Agg a], b], c\nProjection [\"x\",\"y\"]"

/-- An engine that answers every execution with `c2Plan`. -/
def c2Engine : Engine Unit :=
  ⟨fun _ _ _ => .ok c2Plan (), fun _ => 0, fun _ => 0⟩

/-- An engine that answers every execution with a plan containing no
hash-join marker and no filter marker. -/
def c5Engine : Engine Unit :=
  ⟨fun _ _ _ => .ok "SeqScan t1" (), fun _ => 0, fun _ => 0⟩

/-- An engine that answers with a plan containing three hash-join markers
and a filter marker (the filter suppresses the count check). -/
def c5FilterEngine : Engine Unit :=
  ⟨fun _ _ _ => .ok "Filter HashJoinxHashJoinxHashJoin" (), fun _ => 0, fun _ => 0⟩

/-- An engine that answers every execution with a plan containing a top-N
marker, used to exercise the check-option trace. -/
def c9Engine : Engine Unit :=
  ⟨fun _ _ _ => .ok "TopN" (), fun _ => 0, fun _ => 0⟩

/-- Two statements: the first enables the top-N check by directive, the
second has no directives at all. -/
def c9Records : List Record :=
  [.statement ⟨"s1", false, ["ensure:topn"]⟩, .statement ⟨"s2", false, []⟩]

/-- A query that would fail under `trivEngine` (output `""` never equals
`"42"`): placed after a halt it must never run. -/
def c10BadQuery : QueryRecord := ⟨"select * from t1", "42", .NONE, []⟩

/-- A configuration whose minimum-disk-write threshold (1000) is violated
by every engine above (their counters are 0). -/
def c10Cfg : Config := { checkMinDiskWrite := some 1000 }

/-! ## Helper lemmas -/

variable {σ : Type}

/-- Processing a single option is `processOneOption` itself. -/
theorem peo_single (eng : Engine σ) (sql opt : String) (co : CheckOptions) (s : σ) :
    ProcessExtraOptions eng sql [opt] co s = processOneOption eng sql opt co s := by
  cases h : processOneOption eng sql opt co s <;> simp [ProcessExtraOptions, h]

/-- Two strings are distinct (`==` is `false`) when one starts with a
prefix the other does not start with. -/
theorem beq_false_of_startsWith {a c pre : String}
    (h1 : cppStartsWith a pre = true) (h2 : cppStartsWith c pre = false) :
    (a == c) = false := by
  by_contra hne
  rw [Bool.not_eq_false] at hne
  rw [eq_of_beq hne] at h1
  rw [h2] at h1
  exact Bool.noConfusion h1

theorem ensureIndexScan_ok {plan : String} {co : CheckOptions} {s : σ} {co' : CheckOptions}
    {s' : σ} (h : ensureIndexScan plan co s = .ok co' s') : co' = co := by
  unfold ensureIndexScan at h
  split_ifs at h
  all_goals first
    | exact PeoResult.noConfusion h
    | (injection h with h1 h2; exact h1.symm)

theorem ensureSeqScan_ok {plan : String} {co : CheckOptions} {s : σ} {co' : CheckOptions}
    {s' : σ} (h : ensureSeqScan plan co s = .ok co' s') : co' = co := by
  unfold ensureSeqScan at h
  split_ifs at h
  all_goals first
    | exact PeoResult.noConfusion h
    | (injection h with h1 h2; exact h1.symm)

theorem ensureHashJoin_ok {plan : String} {co : CheckOptions} {s : σ} {co' : CheckOptions}
    {s' : σ} (h : ensureHashJoin plan co s = .ok co' s') : co' = co := by
  unfold ensureHashJoin at h
  split_ifs at h
  all_goals first
    | exact PeoResult.noConfusion h
    | (injection h with h1 h2; exact h1.symm)

theorem ensureHashJoinNoFilter_ok {plan : String} {co : CheckOptions} {s : σ}
    {co' : CheckOptions} {s' : σ} (h : ensureHashJoinNoFilter plan co s = .ok co' s') :
    co' = co := by
  unfold ensureHashJoinNoFilter at h
  split_ifs at h
  all_goals first
    | exact PeoResult.noConfusion h
    | (injection h with h1 h2; exact h1.symm)

theorem ensureHashJoin2_ok {plan : String} {co : CheckOptions} {s : σ} {co' : CheckOptions}
    {s' : σ} (h : ensureHashJoin2 plan co s = .ok co' s') : co' = co := by
  unfold ensureHashJoin2 at h
  split_ifs at h
  all_goals first
    | exact PeoResult.noConfusion h
    | (injection h with h1 h2; exact h1.symm)

theorem ensureHashJoin3_ok {plan : String} {co : CheckOptions} {s : σ} {co' : CheckOptions}
    {s' : σ} (h : ensureHashJoin3 plan co s = .ok co' s') : co' = co := by
  unfold ensureHashJoin3 at h
  split_ifs at h
  all_goals first
    | exact PeoResult.noConfusion h
    | (injection h with h1 h2; exact h1.symm)

theorem ensureTopn_ok {plan : String} {co : CheckOptions} {s : σ} {co' : CheckOptions}
    {s' : σ} (h : ensureTopn plan co s = .ok co' s') : co' = { co with topn := true } := by
  unfold ensureTopn at h
  split_ifs at h
  all_goals first
    | exact PeoResult.noConfusion h
    | (injection h with h1 h2; exact h1.symm)

theorem ensureTopn2_ok {plan : String} {co : CheckOptions} {s : σ} {co' : CheckOptions}
    {s' : σ} (h : ensureTopn2 plan co s = .ok co' s') : co' = { co with topn := true } := by
  unfold ensureTopn2 at h
  split_ifs at h
  all_goals first
    | exact PeoResult.noConfusion h
    | (injection h with h1 h2; exact h1.symm)

theorem ensureIndexJoin_ok {plan : String} {co : CheckOptions} {s : σ} {co' : CheckOptions}
    {s' : σ} (h : ensureIndexJoin plan co s = .ok co' s') : co' = co := by
  unfold ensureIndexJoin at h
  split_ifs at h
  all_goals first
    | exact PeoResult.noConfusion h
    | (injection h with h1 h2; exact h1.symm)

theorem ensureNljInitCheck_ok {plan : String} {co : CheckOptions} {s : σ}
    {co' : CheckOptions} {s' : σ} (h : ensureNljInitCheck plan co s = .ok co' s') :
    co' = { co with nlj := true } := by
  unfold ensureNljInitCheck at h
  split_ifs at h
  all_goals first
    | exact PeoResult.noConfusion h
    | (injection h with h1 h2; exact h1.symm)

theorem ensureColumnPruned_ok {opt plan : String} {co : CheckOptions} {s : σ}
    {co' : CheckOptions} {s' : σ} (h : ensureColumnPruned opt plan co s = .ok co' s') :
    co' = co := by
  unfold ensureColumnPruned at h
  split_ifs at h
  split at h
  · split at h
    · injection h with h1 h2; exact h1.symm
    · exact PeoResult.noConfusion h
  · exact PeoResult.noConfusion h

/-- A successful `ensure:` check only ever adds the flag its own directive
stands for: the result's top-N flag was already set or the option is one
of the two top-N directives, and likewise for the nested-loop-join flag. -/
theorem ensureCheck_flags {opt plan : String} {co : CheckOptions} {s : σ}
    {co' : CheckOptions} {s' : σ} (h : ensureCheck opt plan co s = .ok co' s') :
    (co'.topn = true → co.topn = true ∨ opt = "ensure:topn" ∨ opt = "ensure:topn*2") ∧
    (co'.nlj = true → co.nlj = true ∨ opt = "ensure:nlj_init_check") := by
  unfold ensureCheck at h
  by_cases h1 : (opt == "ensure:index_scan") = true
  · rw [if_pos h1] at h
    rw [ensureIndexScan_ok h]; exact ⟨fun ht => Or.inl ht, fun hn => Or.inl hn⟩
  rw [if_neg h1] at h
  by_cases h2 : (opt == "ensure:seq_scan") = true
  · rw [if_pos h2] at h
    rw [ensureSeqScan_ok h]; exact ⟨fun ht => Or.inl ht, fun hn => Or.inl hn⟩
  rw [if_neg h2] at h
  by_cases h3 : (opt == "ensure:hash_join") = true
  · rw [if_pos h3] at h
    rw [ensureHashJoin_ok h]; exact ⟨fun ht => Or.inl ht, fun hn => Or.inl hn⟩
  rw [if_neg h3] at h
  by_cases h4 : (opt == "ensure:hash_join_no_filter") = true
  · rw [if_pos h4] at h
    rw [ensureHashJoinNoFilter_ok h]; exact ⟨fun ht => Or.inl ht, fun hn => Or.inl hn⟩
  rw [if_neg h4] at h
  by_cases h5 : (opt == "ensure:hash_join*2") = true
  · rw [if_pos h5] at h
    rw [ensureHashJoin2_ok h]; exact ⟨fun ht => Or.inl ht, fun hn => Or.inl hn⟩
  rw [if_neg h5] at h
  by_cases h6 : (opt == "ensure:hash_join*3") = true
  · rw [if_pos h6] at h
    rw [ensureHashJoin3_ok h]; exact ⟨fun ht => Or.inl ht, fun hn => Or.inl hn⟩
  rw [if_neg h6] at h
  by_cases h7 : (opt == "ensure:topn") = true
  · rw [if_pos h7] at h
    rw [ensureTopn_ok h]
    exact ⟨fun _ => Or.inr (Or.inl (eq_of_beq h7)), fun hn => Or.inl hn⟩
  rw [if_neg h7] at h
  by_cases h8 : (opt == "ensure:topn*2") = true
  · rw [if_pos h8] at h
    rw [ensureTopn2_ok h]
    exact ⟨fun _ => Or.inr (Or.inr (eq_of_beq h8)), fun hn => Or.inl hn⟩
  rw [if_neg h8] at h
  by_cases h9 : (opt == "ensure:index_join") = true
  · rw [if_pos h9] at h
    rw [ensureIndexJoin_ok h]; exact ⟨fun ht => Or.inl ht, fun hn => Or.inl hn⟩
  rw [if_neg h9] at h
  by_cases h10 : (opt == "ensure:nlj_init_check") = true
  · rw [if_pos h10] at h
    rw [ensureNljInitCheck_ok h]
    exact ⟨fun ht => Or.inl ht, fun _ => Or.inr (eq_of_beq h10)⟩
  rw [if_neg h10] at h
  by_cases h11 : cppStartsWith opt "ensure:column-pruned" = true
  · rw [if_pos h11] at h
    rw [ensureColumnPruned_ok h]; exact ⟨fun ht => Or.inl ht, fun hn => Or.inl hn⟩
  rw [if_neg h11] at h
  exact PeoResult.noConfusion h

/-- The timing loop never changes the check options. -/
theorem timingRuns_ok {eng : Engine σ} {sql : String} {co : CheckOptions} :
    ∀ (n : Nat) (s : σ) {co' : CheckOptions} {s' : σ},
    timingRuns eng sql co n s = .ok co' s' → co' = co := by
  intro n
  induction n with
  | zero => intro s co' s' h; injection h with h1 h2; exact h1.symm
  | succ n ih =>
    intro s co' s' h
    unfold timingRuns at h
    cases hexec : eng.exec s sql none with
    | err s1 => rw [hexec] at h; exact PeoResult.noConfusion h
    | ok out s1 => rw [hexec] at h; exact ih s1 h

/-- Flag provenance for one option. -/
theorem processOneOption_flags {eng : Engine σ} {sql opt : String} {co : CheckOptions}
    {s : σ} {co' : CheckOptions} {s' : σ}
    (h : processOneOption eng sql opt co s = .ok co' s') :
    (co'.topn = true → co.topn = true ∨ opt = "ensure:topn" ∨ opt = "ensure:topn*2") ∧
    (co'.nlj = true → co.nlj = true ∨ opt = "ensure:nlj_init_check") := by
  unfold processOneOption at h
  by_cases hb1 : cppStartsWith opt "ensure:" = true
  · rw [if_pos hb1] at h
    cases hexec : eng.exec s ("explain (o) " ++ sql) none with
    | err s1 => rw [hexec] at h; exact PeoResult.noConfusion h
    | ok plan s1 => rw [hexec] at h; exact ensureCheck_flags h
  rw [if_neg hb1] at h
  by_cases hb2 : cppStartsWith opt "timing" = true
  · rw [if_pos hb2] at h
    cases hpt : parseTiming ((cppSplit opt ":").drop 1) 1 with
    | error k => rw [hpt] at h; exact PeoResult.noConfusion h
    | ok rep =>
      rw [hpt] at h
      rw [timingRuns_ok _ _ h]
      exact ⟨fun ht => Or.inl ht, fun hn => Or.inl hn⟩
  rw [if_neg hb2] at h
  by_cases hb3 : cppStartsWith opt "explain" = true
  · rw [if_pos hb3] at h
    cases hexec : eng.exec s (explainSqlFor opt sql) none with
    | err s1 => rw [hexec] at h; exact PeoResult.noConfusion h
    | ok out s1 =>
      rw [hexec] at h
      injection h with h1 h2
      rw [h1.symm]
      exact ⟨fun ht => Or.inl ht, fun hn => Or.inl hn⟩
  rw [if_neg hb3] at h
  exact PeoResult.noConfusion h

/-- Flag provenance for a whole option list: a flag set in the result was
set in the initial options or enabled by one of the listed directives. -/
theorem ProcessExtraOptions_flags {eng : Engine σ} {sql : String} :
    ∀ (opts : List String) (co : CheckOptions) (s : σ) {co' : CheckOptions} {s' : σ},
    ProcessExtraOptions eng sql opts co s = .ok co' s' →
    (co'.topn = true → co.topn = true ∨ "ensure:topn" ∈ opts ∨ "ensure:topn*2" ∈ opts) ∧
    (co'.nlj = true → co.nlj = true ∨ "ensure:nlj_init_check" ∈ opts) := by
  intro opts
  induction opts with
  | nil =>
    intro co s co' s' h
    injection h with h1 h2
    rw [h1.symm]
    exact ⟨fun ht => Or.inl ht, fun hn => Or.inl hn⟩
  | cons opt rest ih =>
    intro co s co' s' h
    unfold ProcessExtraOptions at h
    cases hone : processOneOption eng sql opt co s with
    | ok co1 s1 =>
      rw [hone] at h
      obtain ⟨ht1, hn1⟩ := processOneOption_flags hone
      obtain ⟨ht2, hn2⟩ := ih co1 s1 h
      constructor
      · intro ht
        rcases ht2 ht with h' | h' | h'
        · rcases ht1 h' with h'' | h'' | h''
          · exact Or.inl h''
          · exact Or.inr (Or.inl (by rw [h'']; exact List.mem_cons_self _ _))
          · exact Or.inr (Or.inr (by rw [h'']; exact List.mem_cons_self _ _))
        · exact Or.inr (Or.inl (List.mem_cons_of_mem _ h'))
        · exact Or.inr (Or.inr (List.mem_cons_of_mem _ h'))
      · intro hn
        rcases hn2 hn with h' | h'
        · rcases hn1 h' with h'' | h''
          · exact Or.inl h''
          · exact Or.inr (by rw [h'']; exact List.mem_cons_self _ _)
        · exact Or.inr (List.mem_cons_of_mem _ h')
    | failed s1 => rw [hone] at h; exact PeoResult.noConfusion h
    | thrown k s1 => rw [hone] at h; exact PeoResult.noConfusion h

/-- Every execution event one record produces starts from that record's
entry state, and its check options are exactly the result of processing
the record's own directives from the fresh empty set. -/
theorem execRecord_events {cfg : Bool} {eng : Engine σ} {s : σ} {r : Record}
    {ev : ExecEvent σ} (hev : ev ∈ (execRecord cfg eng s r).2) :
    ev.pre = s ∧
      ∃ s1, ProcessExtraOptions eng ev.sql ev.opts emptyCheckOptions s = .ok ev.co s1 := by
  cases r with
  | halt => simp [execRecord] at hev
  | sleep n => simp [execRecord] at hev
  | statement st =>
    simp only [execRecord] at hev
    split at hev
    · simp at hev
    · split_ifs at hev <;> simp at hev
    · split at hev
      all_goals simp at hev
      all_goals subst hev
      all_goals exact ⟨rfl, ⟨_, by assumption⟩⟩
  | query q =>
    simp only [execRecord] at hev
    split at hev
    · simp at hev
    · split_ifs at hev <;> simp at hev
    · split at hev
      all_goals simp at hev
      all_goals subst hev
      all_goals exact ⟨rfl, ⟨_, by assumption⟩⟩

/-- A non-aborting prefix of the stream shifts the run to its continuation
state. -/
theorem runRecords_append (cfg : Config) (eng : Engine σ) (pre : List Record)
    (rest : List Record) (s s' : σ) (h : runPrefix cfg eng s pre = some s') :
    (runRecords cfg eng s (pre ++ rest)).1 = (runRecords cfg eng s' rest).1 := by
  induction pre generalizing s with
  | nil =>
    simp only [runPrefix, Option.some_inj] at h
    subst h; rfl
  | cons r pre ih =>
    simp only [List.cons_append, runRecords]
    simp only [runPrefix] at h
    cases hstep : execRecord cfg.diff eng s r with
    | mk step evs =>
      rw [hstep] at h
      cases step with
      | cont s1 => exact ih s1 h
      | exit c => simp at h
      | crash => simp at h

/-- The code's column-pruned line scan equals the amended structural
reading: projections before the first `Agg` line, then the first `Agg`
line. -/
theorem columnPrunedLoop_eq (p a : Int) (lines : List String) :
    columnPrunedLoop p a lines = columnPrunedScan p a lines := by
  induction lines with
  | nil => rfl
  | cons line rest ih =>
    unfold columnPrunedLoop columnPrunedScan
    by_cases hAgg : cppStartsWith (cppLtrim line) "Agg" = true
    · simp [hAgg]
    · by_cases hProj : cppStartsWith (cppLtrim line) "Projection" = true
      · by_cases hCount : cppCount (cppLtrim line) "\"," + 1 > castSizeT p
        · simp [hAgg, hProj, hCount]
        · rw [ih]
          unfold columnPrunedScan
          simp [hAgg, hProj, hCount]
      · rw [ih]
        unfold columnPrunedScan
        simp [hAgg, hProj]

/-! ## Claim theorems -/

/-- C7: with produced `"a\nb"` and expected `"b\na"`, the comparator
reports equal under `ROWSORT` and not equal under `NONE`. -/
theorem claim7_rowsort_vs_none :
    ResultCompare "a\nb" "b\na" SortMode.ROWSORT false = true ∧
    ResultCompare "a\nb" "b\na" SortMode.NONE false = false := by
  refine ⟨by decide, by decide⟩

/-- C8: comparing any text block against itself yields equality under
either sort mode (normalization and sorting are applied to both sides
alike). -/
theorem claim8_compare_reflexive (a : String) (sortMode : SortMode) (dumpDiff : Bool) :
    ResultCompare a a sortMode dumpDiff = true := by
  cases sortMode <;> simp [ResultCompare]

/-- C3: once a statement's directives pass, an engine error on execution
continues the run exactly when `is_error_` is set (else the run exits 1),
and a successful execution continues exactly when `is_error_` is not set
(else the run exits 1, "statement should error"). -/
theorem claim3_statement_error_expectation (cfg : Config) (eng : Engine σ) (s : σ)
    (st : StatementRecord) (rest : List Record) (co : CheckOptions) (s1 : σ)
    (hpeo : ProcessExtraOptions eng st.sql st.extra_options emptyCheckOptions s = .ok co s1) :
    (∀ s2, eng.exec s1 st.sql (some co) = .err s2 →
      (runRecords cfg eng s (.statement st :: rest)).1 =
        if st.is_error then (runRecords cfg eng s2 rest).1 else .exit 1) ∧
    (∀ out s2, eng.exec s1 st.sql (some co) = .ok out s2 →
      (runRecords cfg eng s (.statement st :: rest)).1 =
        if st.is_error then .exit 1 else (runRecords cfg eng s2 rest).1) := by
  constructor
  · intro s2 hexec
    simp only [runRecords, execRecord, hpeo, hexec]
    cases st.is_error <;> simp
  · intro out s2 hexec
    simp only [runRecords, execRecord, hpeo, hexec]
    cases st.is_error <;> simp

/-- Witness for C3 at concrete inputs: an expected-error statement whose
execution errors lets the run finish with exit 0; a normal statement whose
execution succeeds also does. -/
theorem claim3_statement_error_expectation_witness :
    (runRecords {} errEngine () [.statement ⟨"s", true, []⟩]).1 = RunResult.exit 0 ∧
    (runRecords {} trivEngine () [.statement ⟨"s", false, []⟩]).1 = RunResult.exit 0 := by
  constructor
  · have h := (claim3_statement_error_expectation {} errEngine () ⟨"s", true, []⟩ []
      emptyCheckOptions () rfl).1 () rfl
    rw [h]; rfl
  · have h := (claim3_statement_error_expectation {} trivEngine () ⟨"s", false, []⟩ []
      emptyCheckOptions () rfl).2 "" () rfl
    rw [h]; rfl

/-- C4: once a query's directives pass, an engine error on execution
always exits the run with failure, and the result comparison happens only
after a successful execution. -/
theorem claim4_query_error_fatal (cfg : Config) (eng : Engine σ) (s : σ) (q : QueryRecord)
    (rest : List Record) (co : CheckOptions) (s1 : σ)
    (hpeo : ProcessExtraOptions eng q.sql q.extra_options emptyCheckOptions s = .ok co s1) :
    (∀ s2, eng.exec s1 q.sql (some co) = .err s2 →
      (runRecords cfg eng s (.query q :: rest)).1 = .exit 1) ∧
    (∀ out s2, eng.exec s1 q.sql (some co) = .ok out s2 →
      (runRecords cfg eng s (.query q :: rest)).1 =
        if ResultCompare out q.expected_result q.sort_mode cfg.diff then
          (runRecords cfg eng s2 rest).1
        else .exit 1) := by
  constructor
  · intro s2 hexec
    simp only [runRecords, execRecord, hpeo, hexec]
  · intro out s2 hexec
    simp only [runRecords, execRecord, hpeo, hexec]
    by_cases hcmp : ResultCompare out q.expected_result q.sort_mode cfg.diff = true <;>
      simp [hcmp]

/-- Witness for C4 at concrete inputs: an erroring engine exits the run
with 1; a successful matching query lets the run finish with exit 0. -/
theorem claim4_query_error_fatal_witness :
    (runRecords {} errEngine () [.query ⟨"q", "1", .NONE, []⟩]).1 = RunResult.exit 1 ∧
    (runRecords {} oneEngine () [.query ⟨"q", "1", .NONE, []⟩]).1 = RunResult.exit 0 := by
  constructor
  · exact (claim4_query_error_fatal {} errEngine () ⟨"q", "1", .NONE, []⟩ []
      emptyCheckOptions () rfl).1 () rfl
  · have h := (claim4_query_error_fatal {} oneEngine () ⟨"q", "1", .NONE, []⟩ []
      emptyCheckOptions () rfl).2 "1" () rfl
    rw [h]; rfl

/-- C5: with the plan captured for the record's SQL, `ensure:hash_join`
fails exactly when splitting the plan on `"HashJoin"` does not yield
exactly 2 fragments and the plan has no `"Filter"`; whenever a filter is
present the directive passes. -/
theorem claim5_ensure_hash_join (eng : Engine σ) (s s' : σ) (sql plan : String)
    (co : CheckOptions) (hexp : eng.exec s ("explain (o) " ++ sql) none = .ok plan s') :
    (ProcessExtraOptions eng sql ["ensure:hash_join"] co s = .failed s' ↔
      ((cppSplit plan "HashJoin").length ≠ 2 ∧ cppContains plan "Filter" = false)) ∧
    (cppContains plan "Filter" = true →
      ProcessExtraOptions eng sql ["ensure:hash_join"] co s = .ok co s') := by
  have hpo : processOneOption eng sql "ensure:hash_join" co s =
      ensureCheck "ensure:hash_join" plan co s' := by
    unfold processOneOption
    rw [show cppStartsWith "ensure:hash_join" "ensure:" = true from rfl]
    simp only [if_true, hexp]
  have hred : ensureCheck "ensure:hash_join" plan co s' =
      if (cppSplit plan "HashJoin").length != 2 && !cppContains plan "Filter" then .failed s'
      else .ok co s' := rfl
  rw [peo_single, hpo, hred]
  by_cases hc : ((cppSplit plan "HashJoin").length != 2 && !cppContains plan "Filter") = true
  · rw [if_pos hc]
    simp only [Bool.and_eq_true, bne_iff_ne, Bool.not_eq_true'] at hc
    simp [hc]
  · rw [if_neg hc]
    simp only [Bool.and_eq_true, bne_iff_ne, Bool.not_eq_true', not_and_or] at hc
    constructor
    · constructor
      · intro h; cases h
      · intro ⟨hl, hf⟩
        rcases hc with h | h
        · simp at h; exact absurd h hl
        · rw [hf] at h; exact absurd rfl h
    · intro _; rfl

/-- Witness for C5 at concrete inputs: a plan with no hash join and no
filter fails the directive; a plan with three hash joins but a filter
passes it. -/
theorem claim5_ensure_hash_join_witness :
    ProcessExtraOptions c5Engine "q" ["ensure:hash_join"] emptyCheckOptions () = .failed () ∧
    ProcessExtraOptions c5FilterEngine "q" ["ensure:hash_join"] emptyCheckOptions () =
      .ok emptyCheckOptions () := by
  constructor
  · exact (claim5_ensure_hash_join c5Engine () () "q" "SeqScan t1" emptyCheckOptions
      rfl).1.mpr ⟨by decide, by decide⟩
  · exact (claim5_ensure_hash_join c5FilterEngine () () "q" "Filter HashJoinxHashJoinxHashJoin"
      emptyCheckOptions rfl).2 (by decide)

/-- C10: when the run reaches a `Halt` record, the driver returns 0 at
once: the remaining records (whatever they are) are never processed, and
the post-run disk threshold checks (whatever the configuration and the
engine's counters) are skipped. -/
theorem claim10_halt_terminates (cfg : Config) (eng : Engine σ) (s s' : σ)
    (pre post : List Record) (h : runPrefix cfg eng s pre = some s') :
    (runRecords cfg eng s (pre ++ Record.halt :: post)).1 = .exit 0 := by
  rw [runRecords_append cfg eng pre _ s s' h]
  rfl

/-- Witness for C10 at concrete inputs: a violated minimum-disk-write
threshold (1000 against counters stuck at 0) and a failing query after the
halt still leave the exit code at 0. -/
theorem claim10_halt_terminates_witness :
    (runRecords c10Cfg trivEngine () (Record.halt :: [Record.query c10BadQuery])).1 =
      RunResult.exit 0 :=
  claim10_halt_terminates c10Cfg trivEngine () () [] [Record.query c10BadQuery] rfl

/-- C1 counterexample: a statement with `is_error_` set whose directive
list holds an unsupported directive does NOT abort the run: the
`NotImplementedException` is caught by the statement handler's
`catch (bustub::Exception &)` and absorbed as the expected error, and the
whole run exits 0. -/
theorem claim1_counterexample :
    (sqllogictestMain {} trivEngine () [.statement c1Stmt]).1 = RunResult.exit 0 := by
  decide

/-- C1 amended: a configuration error (`NotImplementedException`) raised
during directive processing aborts the run for query records and for
statements without the expected-error flag, but for a statement with
`is_error_` set it is absorbed like an expected engine error and the run
continues; a malformed numeric directive argument
(`std::invalid_argument` from `std::stoi`) is caught by no handler and
crashes the process in every case. -/
theorem claim1_config_error_behavior (cfg : Config) (eng : Engine σ) (s s' : σ)
    (rest : List Record) :
    (∀ q : QueryRecord,
      ProcessExtraOptions eng q.sql q.extra_options emptyCheckOptions s =
        .thrown .notImpl s' →
      (runRecords cfg eng s (.query q :: rest)).1 = .exit 1) ∧
    (∀ st : StatementRecord, st.is_error = false →
      ProcessExtraOptions eng st.sql st.extra_options emptyCheckOptions s =
        .thrown .notImpl s' →
      (runRecords cfg eng s (.statement st :: rest)).1 = .exit 1) ∧
    (∀ st : StatementRecord, st.is_error = true →
      ProcessExtraOptions eng st.sql st.extra_options emptyCheckOptions s =
        .thrown .notImpl s' →
      (runRecords cfg eng s (.statement st :: rest)).1 = (runRecords cfg eng s' rest).1) ∧
    (∀ st : StatementRecord,
      ProcessExtraOptions eng st.sql st.extra_options emptyCheckOptions s =
        .thrown .invalidArg s' →
      (runRecords cfg eng s (.statement st :: rest)).1 = .crash) := by
  refine ⟨?_, ?_, ?_, ?_⟩
  · intro q hq
    simp [runRecords, execRecord, hq, ErrKind.isBustubException]
  · intro st hne hq
    simp [runRecords, execRecord, hq, ErrKind.isBustubException, hne]
  · intro st herr hq
    simp [runRecords, execRecord, hq, ErrKind.isBustubException, herr]
  · intro st hq
    simp [runRecords, execRecord, hq, ErrKind.isBustubException]

/-- Witness for C1's amended behavior at concrete inputs: the unsupported
directive exits 1 on a query and on a non-expected-error statement,
continues (exit 0) on an expected-error statement, and non-numeric
column-pruned arguments crash the process. -/
theorem claim1_config_error_behavior_witness :
    (runRecords {} trivEngine () [.query c1Query]).1 = RunResult.exit 1 ∧
    (runRecords {} trivEngine () [.statement c1StmtNoErr]).1 = RunResult.exit 1 ∧
    (runRecords {} trivEngine () [.statement c1Stmt]).1 = RunResult.exit 0 ∧
    (runRecords {} trivEngine () [.statement c1StmtBadArgs]).1 = RunResult.crash := by
  refine ⟨?_, ?_, ?_, ?_⟩
  · exact (claim1_config_error_behavior {} trivEngine () () []).1 c1Query (by decide)
  · exact (claim1_config_error_behavior {} trivEngine () () []).2.1 c1StmtNoErr (by decide)
      (by decide)
  · have h := (claim1_config_error_behavior {} trivEngine () () []).2.2.1 c1Stmt (by decide)
      (by decide)
    rw [h]; rfl
  · exact (claim1_config_error_behavior {} trivEngine () () []).2.2.2 c1StmtBadArgs (by decide)

/-- C6: evaluating the directive processor at the failing input: the bare
directive `explain` (no options) makes the driver execute
`explain (explain) <sql>` — the directive string itself ends up as the
options, because splitting `"explain"` on `"explain:"` leaves `"explain"`
as the non-empty first fragment — instead of the plain `explain <sql>`
the spec requires; with an explicit option (`explain:o`) the executed SQL
is `explain (o) <sql>` as specified. -/
theorem claim6_explain_bare_runs_parenthesized :
    ProcessExtraOptions recEngine "select 1" ["explain"] emptyCheckOptions [] =
      .ok emptyCheckOptions ["explain (explain) select 1"] ∧
    explainSqlFor "explain" "select 1" = "explain (explain) select 1" ∧
    explainSqlFor "explain:o" "select 1" = "explain (o) select 1" := by
  refine ⟨by decide, by decide, by decide⟩

/-- C2 counterexample: the directive `ensure:column-pruned:1:5` passes on
a plan whose (first) line is an `Agg` node followed by a `Projection` line
with two entries, although the claim's reading ("tests every projection
node found in the plan", expectation 1) fails that plan: the scan breaks
at the first aggregation line and never tests the projection after it. -/
theorem claim2_counterexample :
    ProcessExtraOptions c2Engine "q" ["ensure:column-pruned:1:5"] emptyCheckOptions () =
      .ok emptyCheckOptions () ∧
    specColumnPruned c2Plan 1 5 = false := by
  refine ⟨by decide, by decide⟩

/-- C2 amended: a well-formed `ensure:column-pruned:<p>:<a>` directive
passes exactly when every projection line strictly before the first `Agg`
line has at most `p` entries and the first `Agg` line (if any) is
well-formed with at most `a` entries in each of its first two column
lists; projection lines after the first `Agg` line are not tested. -/
theorem claim2_column_pruned_amended (eng : Engine σ) (s s' : σ)
    (sql plan opt ps as : String) (pcols acols : Int) (co : CheckOptions)
    (hexp : eng.exec s ("explain (o) " ++ sql) none = .ok plan s')
    (h0 : cppStartsWith opt "ensure:" = true)
    (h1 : cppStartsWith opt "ensure:column-pruned" = true)
    (hargs : cppSplit opt ":" = ["ensure", "column-pruned", ps, as])
    (hp : cppStoiChars ps.data = .ok pcols)
    (ha : cppStoiChars as.data = .ok acols) :
    ProcessExtraOptions eng sql [opt] co s =
      if amendedColumnPruned plan pcols acols then .ok co s' else .failed s' := by
  rw [peo_single]
  unfold processOneOption
  rw [if_pos h0, hexp]
  show ensureCheck opt plan co s' = _
  unfold ensureCheck
  have e1 : (opt == "ensure:index_scan") = false := beq_false_of_startsWith h1 (by decide)
  have e2 : (opt == "ensure:seq_scan") = false := beq_false_of_startsWith h1 (by decide)
  have e3 : (opt == "ensure:hash_join") = false := beq_false_of_startsWith h1 (by decide)
  have e4 : (opt == "ensure:hash_join_no_filter") = false :=
    beq_false_of_startsWith h1 (by decide)
  have e5 : (opt == "ensure:hash_join*2") = false := beq_false_of_startsWith h1 (by decide)
  have e6 : (opt == "ensure:hash_join*3") = false := beq_false_of_startsWith h1 (by decide)
  have e7 : (opt == "ensure:topn") = false := beq_false_of_startsWith h1 (by decide)
  have e8 : (opt == "ensure:topn*2") = false := beq_false_of_startsWith h1 (by decide)
  have e9 : (opt == "ensure:index_join") = false := beq_false_of_startsWith h1 (by decide)
  have e10 : (opt == "ensure:nlj_init_check") = false :=
    beq_false_of_startsWith h1 (by decide)
  rw [if_neg (by simp [e1]), if_neg (by simp [e2]), if_neg (by simp [e3]),
    if_neg (by simp [e4]), if_neg (by simp [e5]), if_neg (by simp [e6]),
    if_neg (by simp [e7]), if_neg (by simp [e8]), if_neg (by simp [e9]),
    if_neg (by simp [e10]), if_pos h1]
  unfold ensureColumnPruned
  rw [hargs]
  rw [if_neg (show ¬((["ensure", "column-pruned", ps, as].length != 4) = true) by simp)]
  simp only [List.getD_cons_succ, List.getD_cons_zero]
  rw [hp, ha]
  show (if columnPrunedLoop pcols acols (cppSplit plan "\n") = true then PeoResult.ok co s'
    else PeoResult.failed s') = _
  rw [columnPrunedLoop_eq]
  rfl

/-- Witness for C2's amended behavior at the concrete plan: with the
projection hidden behind the aggregation line, the directive passes. -/
theorem claim2_column_pruned_amended_witness :
    ProcessExtraOptions c2Engine "q" ["ensure:column-pruned:1:5"] emptyCheckOptions () =
      PeoResult.ok emptyCheckOptions () := by
  have h := claim2_column_pruned_amended c2Engine () () "q" c2Plan
    "ensure:column-pruned:1:5" "1" "5" 1 5 emptyCheckOptions rfl (by decide) (by decide)
    (by decide) rfl rfl
  rw [h]; decide

/-- C9: every `ExecuteSql` call the driver issues for a record uses check
options computed by processing that record's own directives starting from
the fresh empty set built for that record; consequently a flag is present
only when that record's own directive list enables it — nothing leaks
from earlier records. -/
theorem claim9_check_options_fresh (cfg : Config) (eng : Engine σ) :
    ∀ (recs : List Record) (s : σ) (ev : ExecEvent σ),
      ev ∈ (runRecords cfg eng s recs).2 →
      (∃ s1, ProcessExtraOptions eng ev.sql ev.opts emptyCheckOptions ev.pre =
        .ok ev.co s1) ∧
      (ev.co.topn = true → "ensure:topn" ∈ ev.opts ∨ "ensure:topn*2" ∈ ev.opts) ∧
      (ev.co.nlj = true → "ensure:nlj_init_check" ∈ ev.opts) := by
  intro recs
  induction recs with
  | nil => intro s ev hev; simp [runRecords] at hev
  | cons r rest ih =>
    intro s ev hev
    unfold runRecords at hev
    cases hstep : execRecord cfg.diff eng s r with
    | mk step evs =>
      rw [hstep] at hev
      have hfrom : ev ∈ evs →
          (∃ s1, ProcessExtraOptions eng ev.sql ev.opts emptyCheckOptions ev.pre =
            .ok ev.co s1) ∧
          (ev.co.topn = true → "ensure:topn" ∈ ev.opts ∨ "ensure:topn*2" ∈ ev.opts) ∧
          (ev.co.nlj = true → "ensure:nlj_init_check" ∈ ev.opts) := by
        intro hm
        have hmem : ev ∈ (execRecord cfg.diff eng s r).2 := by rw [hstep]; exact hm
        obtain ⟨hpre, s1, hone⟩ := execRecord_events hmem
        refine ⟨⟨s1, by rw [hpre]; exact hone⟩, ?_, ?_⟩
        · intro ht
          rcases (ProcessExtraOptions_flags _ _ _ hone).1 ht with hfalse | hm' | hm'
          · simp [emptyCheckOptions] at hfalse
          · exact Or.inl hm'
          · exact Or.inr hm'
        · intro hn
          rcases (ProcessExtraOptions_flags _ _ _ hone).2 hn with hfalse | hm'
          · simp [emptyCheckOptions] at hfalse
          · exact hm'
      cases step with
      | cont s1 =>
        have hev' : ev ∈ evs ++ (runRecords cfg eng s1 rest).2 := hev
        rw [List.mem_append] at hev'
        rcases hev' with hm | hm
        · exact hfrom hm
        · exact ih s1 ev hm
      | exit c => exact hfrom hev
      | crash => exact hfrom hev

/-- Witness for C9 at a concrete two-record stream: the first record's
event carries exactly the top-N flag its own `ensure:topn` directive
enables. -/
theorem claim9_check_options_fresh_witness :
    (∃ s1, ProcessExtraOptions c9Engine "s1" ["ensure:topn"] emptyCheckOptions () =
      .ok ⟨true, false⟩ s1) ∧
    ((⟨true, false⟩ : CheckOptions).topn = true →
      "ensure:topn" ∈ ["ensure:topn"] ∨ "ensure:topn*2" ∈ ["ensure:topn"]) ∧
    ((⟨true, false⟩ : CheckOptions).nlj = true →
      "ensure:nlj_init_check" ∈ ["ensure:topn"]) :=
  claim9_check_options_fresh {} c9Engine c9Records ()
    ⟨"s1", ["ensure:topn"], (), ⟨true, false⟩⟩ (by decide)

end Bustub
